import Mathlib

/-!
Shallow embedding of the wadaily-streamlined CSV ingestion code
(src/functions/parseCSV.js, src/pages/api/upload/*.js and the read-side
schedule lookup). Strings are modelled as Lean `String`/`List Char`;
JavaScript numbers that matter here are small non-negative integers, so
`Int`/`Nat` are used, with `NaN` outcomes modelled as `Option` failures on
the subdomain the theorems use. The document store is modelled as an
association list from natural key to document, and store failures are
injected through an explicit oracle of per-operation outcomes.
-/

namespace Wadaily

/-! ## Character and string utilities modelling the JS primitives used -/

/-- Digit test matching the character class `\d` on ASCII input. -/
def isDigitCh (c : Char) : Bool := '0' ≤ c && c ≤ '9'

/-- Decimal value of a digit run (the chars are assumed to be digits). -/
def digitsVal (l : List Char) : Nat :=
  l.foldl (fun a c => a * 10 + (c.toNat - 48)) 0

/-- Model of `parseInt` as applied in this code: the argument strings are
either all-digit segments or free text; `parseInt` reads the longest
leading digit run and yields `NaN` (here `none`) when there is none. -/
def jsParseInt (s : List Char) : Option Int :=
  let ds := s.takeWhile isDigitCh
  if ds.isEmpty then none else some (digitsVal ds)

/-- Model of `String.prototype.split(sep)` for a one-character separator:
always yields at least one (possibly empty) segment. -/
def splitOnCh (sep : Char) : List Char → List (List Char)
  | [] => [[]]
  | c :: cs =>
    if c = sep then [] :: splitOnCh sep cs
    else
      match splitOnCh sep cs with
      | [] => [[c]]
      | t :: ts => (c :: t) :: ts

/-- Does `pat` occur at the start of `s`? -/
def begins : List Char → List Char → Bool
  | _, [] => true
  | [], _ :: _ => false
  | c :: s, p :: ps => p = c && begins s ps

/-- Model of `String.prototype.includes(pat)`. -/
def hasSub : List Char → List Char → Bool
  | s, pat =>
    begins s pat ||
      match s with
      | [] => false
      | _ :: t => hasSub t pat

/-- Model of `String.prototype.replace(pat, '')` for a plain (non-global)
pattern: only the first occurrence is removed. -/
def removeFirstSub (pat : List Char) : List Char → List Char
  | [] => []
  | c :: t =>
    if begins (c :: t) pat then (c :: t).drop pat.length
    else c :: removeFirstSub pat t

/-- Model of `String.prototype.toUpperCase` on the ASCII text involved. -/
def jsToUpper (s : String) : String := String.mk (s.data.map Char.toUpper)

/-- The segment of `l` that lies strictly before the last `')'` in `l`. -/
def beforeLastClose (l : List Char) : List Char :=
  ((l.reverse.dropWhile (fun c => c ≠ ')')).drop 1).reverse

/-- Model of `/\((.*)\)/.exec(s)`: the regex engine matches at the first
`'('` that still has a `')'` somewhere after it, and the greedy `.*`
capture extends to the last `')'` of the string. -/
def jsParenCapture : List Char → Option (List Char)
  | [] => none
  | c :: rest =>
    if c = '(' ∧ ')' ∈ rest then some (beforeLastClose rest)
    else jsParenCapture rest

/-- Model of `/(\d+)/g.exec(s)`: scan for the first digit and capture the
maximal digit run starting there. -/
def scanDigitRun : List Char → Option (List Char)
  | [] => none
  | c :: t =>
    if isDigitCh c then some (c :: t.takeWhile isDigitCh)
    else scanDigitRun t

/-- Model of `/Block ([A-Z])/.exec(s)` testing whether the literal
`"Block "` followed by an uppercase letter matches at this position. -/
def blockCodeAt (s : List Char) : Option Char :=
  match s with
  | 'B' :: 'l' :: 'o' :: 'c' :: 'k' :: ' ' :: c :: _ =>
    if 'A' ≤ c && c ≤ 'Z' then some c else none
  | _ => none

/-- Leftmost match of `/Block ([A-Z])/` over the whole string. -/
def firstBlockLetter : List Char → Option Char
  | [] => none
  | c :: t =>
    match blockCodeAt (c :: t) with
    | some l => some l
    | none => firstBlockLetter t

/-! ## The JavaScript Date model

`new Date(year, month, day)` normalises an out-of-range month into the
year and an overflowing day-of-month forward into the following months
(the only direction exercised by this code, whose day values come from
digit runs and hence are non-negative). -/

/-- Gregorian leap-year test, as used by the `Date` runtime. -/
def isLeap (y : Int) : Bool := y % 4 = 0 && (y % 100 ≠ 0 || y % 400 = 0)

/-- Number of days in 0-based month `m` of year `y`. -/
def daysInMonth (y m : Int) : Int :=
  if m = 1 then (if isLeap y then 29 else 28)
  else if m = 3 ∨ m = 5 ∨ m = 8 ∨ m = 10 then 30
  else 31

/-- Forward day-of-month normalisation: while the day exceeds the month
length, move to the next month. The fuel bounds the number of steps; the
callers pass a fuel that is never exhausted for day values ≥ 1. -/
def normDay : Nat → Int → Int → Int → Int × Int × Int
  | fuel, y, m, d =>
    if d ≤ daysInMonth y m then (y, m, d)
    else
      match fuel with
      | 0 => (y, m, d)
      | f + 1 =>
        if m = 11 then normDay f (y + 1) 0 (d - daysInMonth y m)
        else normDay f y (m + 1) (d - daysInMonth y m)

/-- Normalised calendar value held by a JS `Date`: `month` is 0-based. -/
structure JSDate where
  year : Int
  month : Int
  day : Int
deriving DecidableEq, Repr

/-- Model of `new Date(yr, mo, dy)` for `dy ≥ 0`: fold the month into the
year (JS `MakeDay` uses floor division), then normalise the day forward. -/
def mkJSDate (yr mo dy : Int) : JSDate :=
  let y1 := yr + mo.fdiv 12
  let m1 := mo.fmod 12
  let r := normDay dy.toNat y1 m1 dy
  ⟨r.1, r.2.1, r.2.2⟩

/-- Model of the `%` remainder operator of JS (truncating toward zero). -/
def jsRem (a b : Int) : Int := a.tmod b

/-- Embeds `parseVeracrossDate` (src/functions/parseCSV.js:30): split on
`'/'`, `parseInt` each segment, and build
`new Date(a[2] + 2000, a[0] - 1, a[1])`. A missing or digit-free segment
makes the JS date invalid (every getter returns `NaN`), modelled as
`none`. -/
def parseVeracrossDate (s : String) : Option JSDate :=
  let parts := (splitOnCh '/' s.data).map jsParseInt
  match parts.get? 0, parts.get? 1, parts.get? 2 with
  | some (some m), some (some d), some (some y) =>
    some (mkJSDate (y + 2000) (m - 1) d)
  | _, _, _ => none

/-- Embeds `generateWAFormatDate` (src/functions/parseCSV.js:42):
the un-padded string `M-D-YY` taken from the date's getters. -/
def generateWAFormatDate (dt : JSDate) : String :=
  toString (dt.month + 1) ++ "-" ++ toString dt.day ++ "-" ++
    toString (jsRem dt.year 100)

/-- The date string the days pipeline stores for a raw date field: on an
invalid date the JS template literal renders `"NaN-NaN-NaN"`. -/
def formatParsedDate (s : String) : String :=
  match parseVeracrossDate s with
  | some dt => generateWAFormatDate dt
  | none => "NaN-NaN-NaN"

/-! ## Row types and row-to-document mappers -/

/-- A parsed row of the days CSV (the `Event Description` column is never
read by the code). -/
structure CSVDay where
  eventDate : String
  eventCaption : String
deriving DecidableEq, Repr

/-- A parsed row of the schedules CSV. -/
structure CSVEvent where
  description : String
  endTime : String
  startTime : String
  blockSchedule : String
  day : String
deriving DecidableEq, Repr

/-- A schedule event as stored inside a schedule document. -/
structure SEvent where
  name : String
  code : String
  startTime : String
  endTime : String
deriving DecidableEq, Repr

/-- A stored schedule document. -/
structure SchedDoc where
  name : String
  friendlyName : String
  schedule : List SEvent
deriving DecidableEq, Repr

/-- A stored day document. -/
structure DayDoc where
  date : String
  schedule : String
deriving DecidableEq, Repr

/-- Embeds `generateScheduleIdentifier` (src/functions/parseCSV.js:131):
a non-`"-"` day column yields `"US Day {digits}"` from its first digit
run, or the `"ORPHAN"` sentinel when it has no digit; a `"-"` day column
falls back to the `Block Schedule` column. -/
def generateScheduleIdentifier (ev : CSVEvent) : String :=
  if ev.day ≠ "-" then
    match scanDigitRun ev.day.data with
    | none => "ORPHAN"
    | some ds => "US Day " ++ String.mk ds
  else ev.blockSchedule

/-- Embeds `generateScheduleEvent` (src/functions/parseCSV.js:160). -/
def generateScheduleEvent (ev : CSVEvent) : SEvent :=
  let code :=
    match firstBlockLetter ev.description.data with
    | some c => String.mk [c]
    | none => ev.description
  { name := String.mk (removeFirstSub (" - US").data ev.description.data)
    code := code
    startTime := jsToUpper ev.startTime
    endTime := jsToUpper ev.endTime }

/-! ## Start-time comparator and the stable sort of `Array.prototype.sort` -/

/-- The hour/minute keys the comparator at src/functions/parseCSV.js:235
computes from a start time: split on `' '`, split the first part on
`':'`, `parseInt` hour and minute, and add 12 to a non-12 hour when the
second part is `"PM"`. A `NaN` component is `none`. -/
def timeParts (s : String) : Option Int × Option Int :=
  let parts := splitOnCh ' ' s.data
  let hm := splitOnCh ':' (parts.headD [])
  let isPM : Bool := parts.get? 1 = some ("PM").data
  let hour :=
    match jsParseInt (hm.headD []) with
    | some h => some (if isPM && h ≠ 12 then h + 12 else h)
    | none => none
  let minute := jsParseInt ((hm.get? 1).getD [])
  (hour, minute)

/-- The comparator itself. A comparison that touches a `NaN` returns
`NaN`, which `Array.prototype.sort` treats as 0 (equal). -/
def startCmp (a b : SEvent) : Int :=
  match timeParts a.startTime, timeParts b.startTime with
  | (some ah, am), (some bh, bm) =>
    if ah ≠ bh then ah - bh
    else
      match am, bm with
      | some x, some y => x - y
      | _, _ => 0
  | _, _ => 0

/-- Insert `x` in front of the first element it does not strictly exceed
under the comparator. -/
def insOrd (c : α → α → Int) (x : α) : List α → List α
  | [] => [x]
  | y :: ys => if c x y > 0 then y :: insOrd c x ys else x :: y :: ys

/-- Stable comparator sort, modelling `Array.prototype.sort` (stable per
the ECMAScript specification): an element placed among later-input
elements precedes every one it compares equal to. -/
def jsStableSort (c : α → α → Int) : List α → List α
  | [] => []
  | x :: xs => insOrd c x (jsStableSort c xs)

/-! ## The document store and the upsert drain

The store is an association list from natural key to document. Each
attempted operation consumes one entry of an outcome oracle: `some c`
injects a store failure with error code `c`, `none` lets the store act
normally (an insert on a present key then fails with the duplicate-key
code 11000). The drain pops pending saves from the end of the `promises`
array and a duplicate-key fallback update is pushed at the end, so it is
processed immediately after the insert that failed; the embedding
therefore feeds the drain the reversed batch and runs the fallback
inline. -/

/-- The duplicate-key error code of the store. -/
def dupKeyCode : Int := 11000

/-- First binding of a key, as `findOne` returns it. -/
def lookupKey (k : String) : List (String × δ) → Option δ
  | [] => none
  | (k', d) :: t => if k' = k then some d else lookupKey k t

/-- Replace the document at a key in place; a missing key is a no-op,
like `findOneAndUpdate` on an empty match. -/
def setKey (k : String) (f : δ → δ) : List (String × δ) → List (String × δ)
  | st => st.map fun p => if p.1 = k then (p.1, f p.2) else p

/-- Result of one follow-up `findOneAndUpdate`: this promise has no
`catch`, so any injected failure aborts the batch. -/
inductive StepRes (δ : Type) where
  | ok (st : List (String × δ))
  | fail (c : Int)
deriving DecidableEq

/-- The fallback find-and-replace-by-key operation issued after a
duplicate-key insert failure: `ap u` applies the update payload to the
stored document. -/
def runFallbackUpdate (ap : υ → δ → δ) (k : String) (u : υ)
    (o : Option Int) (st : List (String × δ)) : StepRes δ :=
  match o with
  | some c => .fail c
  | none => .ok (setKey k (ap u) st)

/-- The upsert drain over a batch of pending inserts, embedding the
`promises` loops of src/functions/parseCSV.js:111 and 272 together with
the `save().catch` handlers: a duplicate-key failure (code 11000) on an
insert enqueues the fallback update built by `fb` for the same key and is
absorbed; any other failure stops the drain and is surfaced. The result
carries the store state reached, the unconsumed oracle and the surfaced
error, if any. -/
def drain (fb : δ → υ) (ap : υ → δ → δ) :
    List (Option Int) → List (String × δ) → List (String × δ) →
      List (String × δ) × List (Option Int) × Option Int
  | oracle, [], st => (st, oracle, none)
  | oracle, (k, d) :: rest, st =>
    let c? : Option Int :=
      match oracle.headD none with
      | some c => some c
      | none => if (lookupKey k st).isSome then some dupKeyCode else none
    match c? with
    | none => drain fb ap oracle.tail rest (st ++ [(k, d)])
    | some c =>
      if c = dupKeyCode then
        match runFallbackUpdate ap k (fb d) (oracle.tail.headD none) st with
        | .ok st' => drain fb ap oracle.tail.tail rest st'
        | .fail c' => (st, oracle.tail.tail, some c')
      else (st, oracle.tail, some c)

/-! ## The days pipeline -/

/-- Update payload of a `findOneAndUpdate` on the days collection: the
store sets exactly the fields present in the payload. -/
structure DayUpd where
  date : Option String
  schedule : Option String
deriving DecidableEq

/-- Apply a days update payload to a stored document. -/
def dayApply (u : DayUpd) (d : DayDoc) : DayDoc :=
  { date := u.date.getD d.date, schedule := u.schedule.getD d.schedule }

/-- The fallback payload built at src/functions/parseCSV.js:98: only the
`schedule` field is written. -/
def dayFallback (d : DayDoc) : DayUpd := ⟨none, some d.schedule⟩

/-- Caption rewriting of the days loop (src/functions/parseCSV.js:80):
when the parenthetical regex matches, the caption is replaced by its
capture group. -/
def extractCaption (caption : String) : String :=
  match jsParenCapture caption.data with
  | some inner => String.mk inner
  | none => caption

/-- Per-row work of the days loop (src/functions/parseCSV.js:65): skip
captions containing `"Semester"`, otherwise queue an insert keyed by the
reformatted date, with the caption reduced to its parenthesised part when
the parenthetical regex matches. -/
def mapDayRow (day : CSVDay) : Option (String × DayDoc) :=
  if hasSub day.eventCaption.data ("Semester").data then none
  else
    let waDate := formatParsedDate day.eventDate
    some (waDate, ⟨waDate, extractCaption day.eventCaption⟩)

/-- The batch of pending day inserts, in row order. -/
def buildDayOps (rows : List CSVDay) : List (String × DayDoc) :=
  rows.filterMap mapDayRow

/-- Embeds `parseAndUpdateDays` (src/functions/parseCSV.js:53) from
parsed rows: build the batch and drain it (the drain pops from the end of
the array, hence the reversal). -/
def parseAndUpdateDays (oracle : List (Option Int)) (rows : List CSVDay)
    (st : List (String × DayDoc)) :
    List (String × DayDoc) × List (Option Int) × Option Int :=
  drain dayFallback dayApply oracle (buildDayOps rows).reverse st

/-! ## The schedules pipeline -/

/-- Update payload of a `findOneAndUpdate` on the schedules collection.
The code passes the whole rebuilt schedule object, so every field is
present. -/
structure SchedUpd where
  name : Option String
  friendlyName : Option String
  schedule : Option (List SEvent)
deriving DecidableEq

/-- Apply a schedules update payload to a stored document. -/
def schedApply (u : SchedUpd) (d : SchedDoc) : SchedDoc :=
  { name := u.name.getD d.name
    friendlyName := u.friendlyName.getD d.friendlyName
    schedule := u.schedule.getD d.schedule }

/-- The fallback payload built at src/functions/parseCSV.js:260: the
entire schedule object. -/
def schedFallback (d : SchedDoc) : SchedUpd :=
  ⟨some d.name, some d.friendlyName, some d.schedule⟩

/-- One step of the grouping loop (src/functions/parseCSV.js:209): append
the mapped event to an existing group, or open a new group whose friendly
name strips the first `" - US"` from the identifier. JS objects preserve
string-key insertion order, as the association list does. -/
def addEvent (groups : List (String × SchedDoc)) (ev : CSVEvent) :
    List (String × SchedDoc) :=
  let id := generateScheduleIdentifier ev
  match lookupKey id groups with
  | some _ =>
    setKey id (fun g => { g with schedule := g.schedule ++ [generateScheduleEvent ev] }) groups
  | none =>
    groups ++
      [(id, { name := id
              friendlyName := String.mk (removeFirstSub (" - US").data id.data)
              schedule := [generateScheduleEvent ev] })]

/-- Grouping of all rows, in row order. -/
def groupEvents (rows : List CSVEvent) : List (String × SchedDoc) :=
  rows.foldl addEvent []

/-- In-place chronological sort of one group's event list. -/
def sortSchedule (g : SchedDoc) : SchedDoc :=
  { g with schedule := jsStableSort startCmp g.schedule }

/-- The groups as they stand when the save loop runs: every group —
including the `"ORPHAN"` one — with its event list sorted. -/
def buildSchedOps (rows : List CSVEvent) : List (String × SchedDoc) :=
  (groupEvents rows).map fun p => (p.1, sortSchedule p.2)

/-- Embeds `parseAndUpdateSchedules` (src/functions/parseCSV.js:193) from
parsed rows: group, sort, drain every group, and hand back the `ORPHAN`
group's (mapped, sorted) event list as the warnings value the function
returns on success. -/
def parseAndUpdateSchedules (oracle : List (Option Int))
    (rows : List CSVEvent) (st : List (String × SchedDoc)) :
    (List (String × SchedDoc) × List (Option Int) × Option Int) × List SEvent :=
  let docs := buildSchedOps rows
  let r := drain schedFallback schedApply oracle docs.reverse st
  let warnings :=
    match lookupKey "ORPHAN" docs with
    | some g => g.schedule
    | none => []
  (r, warnings)

/-! ## The read-side schedule lookup -/

/-- Embeds the default export of the read-side helper (src/unnamed, the
`getScheduleList` module): `findOne({name})`, with the `"No School Day"`
sentinel substituted when nothing is stored under the name. -/
def getScheduleList (st : List (String × SchedDoc)) (name : String) : SchedDoc :=
  match lookupKey name st with
  | some sch => sch
  | none => { name := "NONE", friendlyName := "No School Day", schedule := [] }

/-! ## Specification-side definitions

These restate, in the specification's words, the row-level rules that the
claims compare against the code embeddings above. -/

/-- Index of the first occurrence of `pat` in `s`, if any. -/
def firstSubAt (pat : List Char) : List Char → Option Nat
  | [] => if begins [] pat then some 0 else none
  | c :: t =>
    if begins (c :: t) pat then some 0 else (firstSubAt pat t).map (· + 1)

/-- Spec wording for removing the `" - US"` substring: cut the pattern
out at its first occurrence, leave the string unchanged otherwise. -/
def specRemoveSub (pat : List Char) (s : List Char) : List Char :=
  match firstSubAt pat s with
  | some i => s.take i ++ s.drop (i + pat.length)
  | none => s

/-- Spec wording for the first run of digits: drop everything before the
first digit and take the digits from there; none when no digit occurs. -/
def specFirstDigitRun (s : List Char) : Option (List Char) :=
  let t := s.dropWhile fun c => !(isDigitCh c)
  if t.isEmpty then none else some (t.takeWhile isDigitCh)

/-- Spec wording for `extractIdentifier`: when the caption contains a
parenthesised group, return the group's inner text (which, for the
greedy pattern, runs from after the first viable `'('` to the last
`')'`); otherwise return the caption unchanged. -/
def specExtractIdentifier (caption : String) : String :=
  if (')') ∈ (caption.data.dropWhile fun c => c ≠ '(').drop 1 then
    String.mk (beforeLastClose ((caption.data.dropWhile fun c => c ≠ '(').drop 1))
  else caption

/-- Spec wording of the day-row mapper (§4.2): skip `"Semester"`
captions; otherwise the schedule is the extracted identifier and the date
is the reformatted date key. -/
def specMapDayRow (day : CSVDay) : Option (String × DayDoc) :=
  if hasSub day.eventCaption.data ("Semester").data then none
  else
    some (formatParsedDate day.eventDate,
          ⟨formatParsedDate day.eventDate, specExtractIdentifier day.eventCaption⟩)

/-- Two-digit rendering of a value below 100, building the `MM/DD/YY`
inputs the round-trip claim quantifies over. -/
def pad2 (n : Nat) : List Char := [Nat.digitChar (n / 10 % 10), Nat.digitChar (n % 10)]

/-- The date string `MM/DD/YY` for the given field values. -/
def mmddyy (m d y : Nat) : String :=
  String.mk (pad2 m ++ '/' :: (pad2 d ++ '/' :: pad2 y))

/-- Sample schedule row builder used by the concrete instances below,
with the fields in CSV-column order `Description`, `End Time`,
`Start Time`, `Block Schedule`, `Day`. -/
def mkEv (desc st et bs day : String) : CSVEvent := ⟨desc, et, st, bs, day⟩

/-! ## Helper lemmas -/

theorem scanDigitRun_eq_spec (s : List Char) : scanDigitRun s = specFirstDigitRun s := by
  induction s with
  | nil => rfl
  | cons c t ih =>
    by_cases h : isDigitCh c = true
    · simp [scanDigitRun, specFirstDigitRun, List.dropWhile, List.takeWhile, h]
    · simp only [Bool.not_eq_true] at h
      simp [scanDigitRun, specFirstDigitRun, List.dropWhile, h] at ih ⊢
      exact ih

theorem removeFirstSub_eq_spec (pat s : List Char) :
    removeFirstSub pat s = specRemoveSub pat s := by
  induction s with
  | nil =>
    simp only [removeFirstSub, specRemoveSub, firstSubAt]
    cases h : begins [] pat <;> simp [h]
  | cons c t ih =>
    by_cases h : begins (c :: t) pat = true
    · simp [removeFirstSub, specRemoveSub, firstSubAt, h]
    · simp only [Bool.not_eq_true] at h
      simp only [removeFirstSub, h, Bool.false_eq_true, if_false, ih,
        specRemoveSub, firstSubAt]
      cases hf : firstSubAt pat t with
      | none => simp [hf]
      | some i =>
        simp only [hf, Option.map_some', List.take_succ_cons]
        have harith : i + 1 + pat.length = (i + pat.length) + 1 := by omega
        rw [harith, List.drop_succ_cons, List.cons_append]

theorem jsParenCapture_none_of_noClose (s : List Char) (h : (')') ∉ s) :
    jsParenCapture s = none := by
  induction s with
  | nil => rfl
  | cons c t ih =>
    simp only [List.mem_cons, not_or] at h
    simp [jsParenCapture, h.2, ih h.2]

theorem jsParenCapture_eq_spec (s : List Char) :
    jsParenCapture s =
      (if (')') ∈ (s.dropWhile fun c => c ≠ '(').drop 1 then
        some (beforeLastClose ((s.dropWhile fun c => c ≠ '(').drop 1))
      else none) := by
  induction s with
  | nil => rfl
  | cons c t ih =>
    by_cases hc : c = '('
    · subst hc
      have hdw : (('(' :: t).dropWhile fun c => c ≠ '(').drop 1 = t := by
        simp [List.dropWhile_cons]
      rw [hdw]
      by_cases ht : (')') ∈ t
      · simp [jsParenCapture, ht]
      · simp [jsParenCapture, ht, jsParenCapture_none_of_noClose t ht]
    · have hdw : ((c :: t).dropWhile fun c => c ≠ '(').drop 1 =
          (t.dropWhile fun c => c ≠ '(').drop 1 := by
        simp [List.dropWhile_cons, hc]
      rw [hdw]
      have hstep : jsParenCapture (c :: t) = jsParenCapture t := by
        simp [jsParenCapture, hc]
      rw [hstep, ih]

theorem extractCaption_eq_spec (caption : String) :
    extractCaption caption = specExtractIdentifier caption := by
  unfold extractCaption specExtractIdentifier
  rw [jsParenCapture_eq_spec]
  split_ifs <;> rfl

theorem mapDayRow_eq_spec (day : CSVDay) : mapDayRow day = specMapDayRow day := by
  unfold mapDayRow specMapDayRow
  rw [extractCaption_eq_spec]

theorem splitOnCh_append (sep : Char) (a b : List Char) (h : ∀ c ∈ a, c ≠ sep) :
    splitOnCh sep (a ++ sep :: b) = a :: splitOnCh sep b := by
  induction a with
  | nil => simp [splitOnCh]
  | cons c a ih =>
    have hc : ¬(c = sep) := h c (by simp)
    have ih' := ih fun x hx => h x (by simp [hx])
    simp [splitOnCh, hc, ih']

theorem splitOnCh_noSep (sep : Char) (a : List Char) (h : ∀ c ∈ a, c ≠ sep) :
    splitOnCh sep a = [a] := by
  induction a with
  | nil => rfl
  | cons c a ih =>
    have hc : ¬(c = sep) := h c (by simp)
    have ih' := ih fun x hx => h x (by simp [hx])
    simp [splitOnCh, hc, ih']

theorem digitChar_facts (k : Nat) (h : k < 10) :
    isDigitCh (Nat.digitChar k) = true ∧ (Nat.digitChar k).toNat - 48 = k ∧
      Nat.digitChar k ≠ '/' := by
  revert h
  revert k
  decide

theorem pad2_noSlash (n : Nat) : ∀ c ∈ pad2 n, c ≠ '/' := by
  intro c hc
  have h1 := digitChar_facts (n / 10 % 10) (Nat.mod_lt _ (by norm_num))
  have h2 := digitChar_facts (n % 10) (Nat.mod_lt _ (by norm_num))
  simp only [pad2, List.mem_cons, List.mem_singleton, List.not_mem_nil, or_false] at hc
  rcases hc with rfl | rfl
  · exact h1.2.2
  · exact h2.2.2

theorem jsParseInt_pad2 (n : Nat) (h : n ≤ 99) : jsParseInt (pad2 n) = some (n : Int) := by
  have h1 := digitChar_facts (n / 10 % 10) (Nat.mod_lt _ (by norm_num))
  have h2 := digitChar_facts (n % 10) (Nat.mod_lt _ (by norm_num))
  simp only [jsParseInt, pad2, List.takeWhile_cons, h1.1, h2.1, List.takeWhile_nil,
    if_true, List.isEmpty_cons, digitsVal, List.foldl, h1.2.1, h2.2.1]
  norm_num
  omega

theorem daysInMonth_le_31 (y m : Int) : daysInMonth y m ≤ 31 := by
  unfold daysInMonth
  split_ifs <;> norm_num

theorem toString_intCast (n : Nat) : toString ((n : Int)) = toString n := rfl

theorem mkJSDate_valid (yr mo dy : Int) (h0 : 0 ≤ mo) (h1 : mo < 12)
    (hdy : dy ≤ daysInMonth yr mo) : mkJSDate yr mo dy = ⟨yr, mo, dy⟩ := by
  have hfd : mo.fdiv 12 = 0 := by
    rw [Int.fdiv_eq_ediv _ (by norm_num)]
    exact Int.ediv_eq_zero_of_lt h0 (by omega)
  have hfm : mo.fmod 12 = mo := by
    rw [Int.fmod_eq_emod _ (by norm_num)]
    exact Int.emod_eq_of_lt h0 (by omega)
  have hnorm : normDay dy.toNat yr mo dy = (yr, mo, dy) := by
    unfold normDay
    rw [if_pos hdy]
  simp only [mkJSDate, hfd, hfm, add_zero, hnorm]

/-! ## Claim theorems -/

/-- C1: the comparator of the aggregation sort maps "12:30 AM" to hour 12
(only `PM` hours other than 12 get +12; a 12 AM hour is never reduced to
0), so the group built for the four start times of the claim comes out
ordered ["9:00 AM", "12:00 PM", "12:30 AM", "1:15 PM"], not in the
claimed (chronological) order that puts "12:30 AM" first. -/
theorem schedSortOrder_c1 :
    ((buildSchedOps
        [mkEv "A" "1:15 PM" "2:00 PM" "S" "D1", mkEv "B" "9:00 AM" "9:30 AM" "S" "D1",
         mkEv "C" "12:00 PM" "1:00 PM" "S" "D1", mkEv "D" "12:30 AM" "1:00 AM" "S" "D1"]).map
        (fun p => (p.1, p.2.schedule.map fun e => e.startTime)))
      = [("US Day 1", ["9:00 AM", "12:00 PM", "12:30 AM", "1:15 PM"])]
    ∧ ("9:00 AM" :: "12:00 PM" :: "12:30 AM" :: "1:15 PM" :: ([] : List String))
        ≠ ["12:30 AM", "9:00 AM", "12:00 PM", "1:15 PM"] := by
  exact ⟨by decide, by decide⟩

/-- C2: the save loop iterates over every group, the ORPHAN group
included, so ingesting a single orphan row (day field "X": not "-" and
digit-free) issues and completes an insert of a ScheduleDocument named
"ORPHAN" — contradicting the claim that no such insert is ever issued. -/
theorem orphanPersisted_c2 :
    (parseAndUpdateSchedules [none] [mkEv "Assembly" "9:00 am" "9:30 am" "" "X"] []).1
      = ([("ORPHAN",
            { name := "ORPHAN", friendlyName := "ORPHAN",
              schedule := [⟨"Assembly", "Assembly", "9:00 AM", "9:30 AM"⟩] })],
         [], none) := by
  decide

/-- C3: the warnings value is the ORPHAN group's schedule list, whose
elements are the mapped (and uppercased) ScheduleEvents, not the raw CSV
rows: for a raw row with start time "9:00 am" the returned element
carries "9:00 AM" and has the mapped shape. The no-orphan input returns
the empty list. -/
theorem orphanWarningsMapped_c3 :
    (parseAndUpdateSchedules [none] [mkEv "Assembly - US" "9:00 am" "9:30 am" "" "X"] []).2
      = [⟨"Assembly", "Assembly - US", "9:00 AM", "9:30 AM"⟩]
    ∧ (⟨"Assembly", "Assembly - US", "9:00 AM", "9:30 AM"⟩ : SEvent).startTime
        ≠ (mkEv "Assembly - US" "9:00 am" "9:30 am" "" "X").startTime
    ∧ (parseAndUpdateSchedules [none] [mkEv "Math" "9:00 am" "9:30 am" "" "D1"] []).2 = [] := by
  exact ⟨by decide, by decide, by decide⟩

/-- C4: the day batch is exactly the spec's row mapper applied to every
row — captions containing "Semester" produce nothing, every other row
produces a record keyed by the reformatted date whose schedule is the
caption after parenthetical extraction — and the end-to-end example
stores the DayRecord (date "9-5-24", schedule "US Day 2"). -/
theorem dayRowMapping_c4 :
    (∀ rows : List CSVDay, buildDayOps rows = rows.filterMap specMapDayRow)
    ∧ specMapDayRow ⟨"9/5/24", "US Day 2"⟩ = some ("9-5-24", ⟨"9-5-24", "US Day 2"⟩)
    ∧ specExtractIdentifier "US Day 2 (X Day - US)" = "X Day - US"
    ∧ specMapDayRow ⟨"1/10/25", "Semester 1 Begins"⟩ = none
    ∧ parseAndUpdateDays [none] [⟨"9/5/24", "US Day 2"⟩] []
        = ([("9-5-24", ⟨"9-5-24", "US Day 2"⟩)], [], none) := by
  have hfun : mapDayRow = specMapDayRow := funext mapDayRow_eq_spec
  refine ⟨fun rows => ?_, by decide, by decide, by decide, by decide⟩
  unfold buildDayOps
  rw [hfun]

/-- C6: the drain absorbs a duplicate-key insert failure by running the
fallback find-and-replace for the same key (what then surfaces, if
anything, is the fallback's own outcome, never the duplicate-key
failure); any other insert failure surfaces to the caller with the batch
stopped and the store exactly as already reached — in particular an
upsert completed before the failure stays persisted. -/
theorem drainErrorPolicy_c6 {δ υ : Type} (fb : δ → υ) (ap : υ → δ → δ)
    (oracle : List (Option Int)) (rest : List (String × δ))
    (st : List (String × δ)) (k k1 : String) (d d1 : δ) (c : Int) :
    (drain fb ap (some dupKeyCode :: none :: oracle) ((k, d) :: rest) st
        = drain fb ap oracle rest (setKey k (ap (fb d)) st))
    ∧ (∀ c' : Int, drain fb ap (some dupKeyCode :: some c' :: oracle) ((k, d) :: rest) st
        = (st, oracle, some c'))
    ∧ (c ≠ dupKeyCode →
        drain fb ap (some c :: oracle) ((k, d) :: rest) st = (st, oracle, some c))
    ∧ (lookupKey k1 st = none → c ≠ dupKeyCode →
        drain fb ap (none :: some c :: oracle) ((k1, d1) :: (k, d) :: rest) st
          = (st ++ [(k1, d1)], oracle, some c)) := by
  refine ⟨?_, fun c' => ?_, fun h => ?_, fun h1 h2 => ?_⟩
  · simp [drain, dupKeyCode, runFallbackUpdate]
  · simp [drain, dupKeyCode, runFallbackUpdate]
  · simp [drain, h]
  · simp [drain, lookupKey, h1, h2]

/-- C6 witness: the drain policy instantiated on the days collection at
concrete keys, documents and error code 5. -/
theorem drainErrorPolicy_c6_wit :
    (drain dayFallback dayApply (some dupKeyCode :: none :: []) [("1-1-24", ⟨"1-1-24", "A"⟩)] []
        = drain dayFallback dayApply [] []
            (setKey "1-1-24" (dayApply (dayFallback ⟨"1-1-24", "A"⟩)) []))
    ∧ (drain dayFallback dayApply (some 5 :: []) [("1-1-24", ⟨"1-1-24", "A"⟩)] []
        = ([], [], some 5))
    ∧ (drain dayFallback dayApply (none :: some 5 :: [])
          [("2-2-24", ⟨"2-2-24", "B"⟩), ("1-1-24", ⟨"1-1-24", "A"⟩)] []
        = ([("2-2-24", ⟨"2-2-24", "B"⟩)], [], some 5)) :=
  ⟨(drainErrorPolicy_c6 dayFallback dayApply [] [] [] "1-1-24" "x"
      ⟨"1-1-24", "A"⟩ ⟨"x", "y"⟩ 5).1,
   (drainErrorPolicy_c6 dayFallback dayApply [] [] [] "1-1-24" "x"
      ⟨"1-1-24", "A"⟩ ⟨"x", "y"⟩ 5).2.2.1 (by decide),
   (drainErrorPolicy_c6 dayFallback dayApply [] [] [] "1-1-24" "2-2-24"
      ⟨"1-1-24", "A"⟩ ⟨"2-2-24", "B"⟩ 5).2.2.2 rfl (by decide)⟩

/-- C7: the day fallback payload writes only the schedule field, so the
stored record keeps its date and takes the new schedule; the schedules
fallback payload carries every field, so the stored document is replaced
wholesale by the newly built one. Shown both at payload level and
through a full dup-then-update drain run. -/
theorem fallbackFrame_c7 :
    (∀ newD oldD : DayDoc, dayApply (dayFallback newD) oldD = ⟨oldD.date, newD.schedule⟩)
    ∧ (∀ newS oldS : SchedDoc, schedApply (schedFallback newS) oldS = newS)
    ∧ (∀ (k : String) (d0 d1 : DayDoc),
        drain dayFallback dayApply [none, none] [(k, d1)] [(k, d0)]
          = ([(k, ⟨d0.date, d1.schedule⟩)], [], none))
    ∧ (∀ (k : String) (s0 s1 : SchedDoc),
        drain schedFallback schedApply [none, none] [(k, s1)] [(k, s0)]
          = ([(k, s1)], [], none)) := by
  refine ⟨fun newD oldD => rfl, fun newS oldS => rfl, fun k d0 d1 => ?_, fun k s0 s1 => ?_⟩
  · simp [drain, lookupKey, dupKeyCode, runFallbackUpdate, setKey, dayApply, dayFallback]
  · simp [drain, lookupKey, dupKeyCode, runFallbackUpdate, setKey, schedApply, schedFallback]

/-- C8: a schedule row whose day field is not "-" gets identifier
"US Day {digits}" from the first digit run of the day field, the ORPHAN
sentinel when the field has no digit, and a "-" day field takes the
identifier from the Block Schedule field. -/
theorem cycleIdentifier_c8 :
    (∀ ev : CSVEvent, ev.day ≠ "-" →
        generateScheduleIdentifier ev =
          (match specFirstDigitRun ev.day.data with
           | none => "ORPHAN"
           | some ds => "US Day " ++ String.mk ds))
    ∧ (∀ ev : CSVEvent, ev.day = "-" → generateScheduleIdentifier ev = ev.blockSchedule)
    ∧ generateScheduleIdentifier (mkEv "x" "8:00 AM" "8:45 AM" "B" "US D4") = "US Day 4"
    ∧ generateScheduleIdentifier (mkEv "x" "8:00 AM" "8:45 AM" "B" "no digits here")
        = "ORPHAN" := by
  refine ⟨fun ev h => ?_, fun ev h => ?_, by decide, by decide⟩
  · unfold generateScheduleIdentifier
    rw [if_pos h, scanDigitRun_eq_spec]
  · unfold generateScheduleIdentifier
    rw [if_neg (by simp [h])]

/-- C8 witness: both quantified branches at concrete rows. -/
theorem cycleIdentifier_c8_wit :
    generateScheduleIdentifier (mkEv "y" "1:00 PM" "1:30 PM" "C Day" "US D7")
      = (match specFirstDigitRun ("US D7").data with
         | none => "ORPHAN"
         | some ds => "US Day " ++ String.mk ds)
    ∧ generateScheduleIdentifier (mkEv "y" "1:00 PM" "1:30 PM" "C Day" "-") = "C Day" :=
  ⟨cycleIdentifier_c8.1 (mkEv "y" "1:00 PM" "1:30 PM" "C Day" "US D7") (by decide),
   cycleIdentifier_c8.2.1 (mkEv "y" "1:00 PM" "1:30 PM" "C Day" "-") rfl⟩

/-- C9: every mapped ScheduleEvent has code the letter captured by
"Block <Letter>" when the pattern matches (else the whole description),
name the description with the first " - US" cut out, and start/end times
uppercased verbatim; both code branches shown on concrete rows. -/
theorem scheduleEventMap_c9 :
    (∀ ev : CSVEvent,
        generateScheduleEvent ev =
          { name := String.mk (specRemoveSub ((" - US").data) ev.description.data)
            code :=
              match firstBlockLetter ev.description.data with
              | some c => String.mk [c]
              | none => ev.description
            startTime := jsToUpper ev.startTime
            endTime := jsToUpper ev.endTime })
    ∧ generateScheduleEvent (mkEv "Block C - US" "8:00 am" "8:45 am" "S" "D1")
        = ⟨"Block C", "C", "8:00 AM", "8:45 AM"⟩
    ∧ generateScheduleEvent (mkEv "Assembly" "9:00 am" "9:30 am" "S" "D1")
        = ⟨"Assembly", "Assembly", "9:00 AM", "9:30 AM"⟩ := by
  refine ⟨fun ev => ?_, by decide, by decide⟩
  unfold generateScheduleEvent
  rw [removeFirstSub_eq_spec]

/-- C10: looking up a name with no stored document yields the No School
Day sentinel rather than a failure or an absent value; a stored document
is returned as stored. -/
theorem scheduleLookup_c10 (st : List (String × SchedDoc)) (name : String) :
    (lookupKey name st = none →
        getScheduleList st name = ⟨"NONE", "No School Day", []⟩)
    ∧ (∀ doc : SchedDoc, lookupKey name st = some doc → getScheduleList st name = doc) := by
  constructor
  · intro h
    unfold getScheduleList
    rw [h]
  · intro doc h
    unfold getScheduleList
    rw [h]

/-- C10 witness: the sentinel on an empty store and a stored document
returned as stored. -/
theorem scheduleLookup_c10_wit :
    getScheduleList [] "US Day 1" = ⟨"NONE", "No School Day", []⟩
    ∧ getScheduleList [("US Day 1", ⟨"US Day 1", "US Day 1", []⟩)] "US Day 1"
        = ⟨"US Day 1", "US Day 1", []⟩ :=
  ⟨(scheduleLookup_c10 [] "US Day 1").1 rfl,
   (scheduleLookup_c10 [("US Day 1", ⟨"US Day 1", "US Day 1", []⟩)] "US Day 1").2
      ⟨"US Day 1", "US Day 1", []⟩ (by decide)⟩

/-- C5 counterexample: "02/30/24" is within the claim's stated validity
range (month 1-12, day 1-31, YY 00-99), but the Date constructor
normalises February 30 of the leap year 2024 forward to March 1, so the
round trip renders "3-1-24" — month and day are not unchanged. -/
theorem dateRoundTrip_c5_cex :
    (parseVeracrossDate "02/30/24").map generateWAFormatDate = some "3-1-24"
    ∧ ("3-1-24" : String) ≠ "2-30-24" := by
  exact ⟨by decide, by decide⟩

/-- C5 (amended): for every MM/DD/YY input denoting a real calendar date
of year 2000+YY — month 1-12, day between 1 and the length of that month
in that year, YY 00-99 — the round trip through the date parser and
formatter yields the un-padded M-D-YY key for the same month, day and
year. -/
theorem dateRoundTrip_c5 (m d y : Nat) (hm1 : 1 ≤ m) (hm2 : m ≤ 12) (hd1 : 1 ≤ d)
    (hd2 : (d : Int) ≤ daysInMonth ((y : Int) + 2000) ((m : Int) - 1)) (hy : y ≤ 99) :
    (parseVeracrossDate (mmddyy m d y)).map generateWAFormatDate
      = some (toString m ++ "-" ++ toString d ++ "-" ++ toString y) := by
  have hd31 : (d : Int) ≤ 31 := le_trans hd2 (daysInMonth_le_31 _ _)
  have hd99 : d ≤ 99 := by omega
  have hm99 : m ≤ 99 := le_trans hm2 (by norm_num)
  have hsplit : splitOnCh '/' (mmddyy m d y).data = [pad2 m, pad2 d, pad2 y] := by
    show splitOnCh '/' (pad2 m ++ '/' :: (pad2 d ++ '/' :: pad2 y)) = _
    rw [splitOnCh_append '/' _ _ (pad2_noSlash m),
        splitOnCh_append '/' _ _ (pad2_noSlash d),
        splitOnCh_noSep '/' _ (pad2_noSlash y)]
  unfold parseVeracrossDate
  rw [hsplit]
  simp only [List.map_cons, List.map_nil, jsParseInt_pad2 m hm99, jsParseInt_pad2 d hd99,
    jsParseInt_pad2 y hy, List.get?, Option.map_some']
  rw [mkJSDate_valid _ _ _ (by omega) (by omega) hd2]
  unfold generateWAFormatDate jsRem
  have h1 : ((m : Int) - 1 + 1 : Int) = (m : Int) := by omega
  have h2 : (((y : Int) + 2000)).tmod 100 = (y : Int) := by
    rw [Int.tmod_eq_emod (by omega) (by norm_num)]
    omega
  rw [h1, h2, toString_intCast, toString_intCast, toString_intCast]

/-- C5 witness: the round trip at 09/05/24 gives "9-5-24". -/
theorem dateRoundTrip_c5_wit :
    (parseVeracrossDate (mmddyy 9 5 24)).map generateWAFormatDate
      = some (toString 9 ++ "-" ++ toString 5 ++ "-" ++ toString 24) :=
  dateRoundTrip_c5 9 5 24 (by decide) (by decide) (by decide) (by decide) (by decide)

end Wadaily
